import Mathlib

/-!
Verification of the polyserver reconciliation logic (src/server.js).

The development shallowly embeds the reconciliation core of the server:
the content fingerprint `getLow128BitsOfSHA256`, the reconciliation
procedure `update`, and the two HTTP endpoints the claims mention
(`/api/next-market-id` and `/api/save-bet`).  Machine integers are
modelled as `Nat`/`Int` with explicit `% 2 ^ w` reductions where the
source performs 32-bit arithmetic; the SQLite store is a list of rows;
the on-chain fetch is an `Option` (with `none` standing for a failed
RPC call).  All definitions are executable.
-/

namespace Polyserver

/-! ## UTF-8 encoding (the behaviour of `TextEncoder.encode`) -/

/-- UTF-8 encoding of one Unicode scalar value `n` as a list of bytes,
the standard 1-to-4-byte encoding produced by `TextEncoder`. -/
def utf8EncodeScalar (n : Nat) : List Nat :=
  if n < 0x80 then [n]
  else if n < 0x800 then [0xC0 + n / 64, 0x80 + n % 64]
  else if n < 0x10000 then
    [0xE0 + n / 4096, 0x80 + n / 64 % 64, 0x80 + n % 64]
  else
    [0xF0 + n / 0x40000, 0x80 + n / 4096 % 64, 0x80 + n / 64 % 64, 0x80 + n % 64]

/-- The UTF-8 bytes of a string, as `TextEncoder.encode` produces them. -/
def utf8Bytes (s : String) : List Nat :=
  s.data.flatMap (fun c => utf8EncodeScalar c.toNat)

/-! ## SHA-256 over byte lists (the behaviour of `crypto.subtle.digest("SHA-256", ·)`)

Words are `Nat`s kept below `2 ^ 32` by explicit reduction. -/

/-- Reduce to a 32-bit word. -/
def w32 (n : Nat) : Nat := n % 4294967296

/-- Right-rotation of a 32-bit word by `n` places. -/
def rotr (x n : Nat) : Nat := x / 2 ^ n + x % 2 ^ n * 2 ^ (32 - n)

/-- SHA-256 `Ch(e, f, g)`; the complement is bitwise xor with the all-ones word. -/
def shaCh (e f g : Nat) : Nat := (e &&& f) ^^^ ((0xFFFFFFFF ^^^ e) &&& g)

/-- SHA-256 `Maj(a, b, c)`. -/
def shaMaj (a b c : Nat) : Nat := (a &&& b) ^^^ (a &&& c) ^^^ (b &&& c)

/-- SHA-256 big Σ₀. -/
def bigSigma0 (x : Nat) : Nat := rotr x 2 ^^^ rotr x 13 ^^^ rotr x 22

/-- SHA-256 big Σ₁. -/
def bigSigma1 (x : Nat) : Nat := rotr x 6 ^^^ rotr x 11 ^^^ rotr x 25

/-- SHA-256 small σ₀. -/
def smallSigma0 (x : Nat) : Nat := rotr x 7 ^^^ rotr x 18 ^^^ x / 2 ^ 3

/-- SHA-256 small σ₁. -/
def smallSigma1 (x : Nat) : Nat := rotr x 17 ^^^ rotr x 19 ^^^ x / 2 ^ 10

/-- The 64 SHA-256 round constants `K₀…K₆₃` (decimal). -/
def shaK : List Nat :=
  [1116352408, 1899447441, 3049323471, 3921009573, 961987163, 1508970993,
   2453635748, 2870763221, 3624381080, 310598401, 607225278, 1426881987,
   1925078388, 2162078206, 2614888103, 3248222580, 3835390401, 4022224774,
   264347078, 604807628, 770255983, 1249150122, 1555081692, 1996064986,
   2554220882, 2821834349, 2952996808, 3210313671, 3336571891, 3584528711,
   113926993, 338241895, 666307205, 773529912, 1294757372, 1396182291,
   1695183700, 1986661051, 2177026350, 2456956037, 2730485921, 2820302411,
   3259730800, 3345764771, 3516065817, 3600352804, 4094571909, 275423344,
   430227734, 506948616, 659060556, 883997877, 958139571, 1322822218,
   1537002063, 1747873779, 1955562222, 2024104815, 2227730452, 2361852424,
   2428436474, 2756734187, 3204031479, 3329325298]

/-- The SHA-256 working state: eight 32-bit words. -/
structure Hash8 where
  a : Nat
  b : Nat
  c : Nat
  d : Nat
  e : Nat
  f : Nat
  g : Nat
  h : Nat
deriving DecidableEq

/-- The SHA-256 initial hash value `H₀…H₇` (decimal). -/
def shaH0 : Hash8 :=
  ⟨1779033703, 3144134277, 1013904242, 2773480762,
   1359893119, 2600822924, 528734635, 1541459225⟩

/-- SHA-256 padding: append `0x80`, zero bytes to reach 56 mod 64, then
the bit length as eight big-endian bytes. -/
def padMessage (msg : List Nat) : List Nat :=
  let len := msg.length
  let bitLen := len * 8
  let padZeros := (119 - len % 64) % 64
  msg ++ [0x80] ++ List.replicate padZeros 0 ++
    [bitLen / 2 ^ 56 % 256, bitLen / 2 ^ 48 % 256, bitLen / 2 ^ 40 % 256,
     bitLen / 2 ^ 32 % 256, bitLen / 2 ^ 24 % 256, bitLen / 2 ^ 16 % 256,
     bitLen / 2 ^ 8 % 256, bitLen % 256]

/-- Split a byte list into 64-byte blocks, with enough fuel; the fuel
is only a structural-recursion device, `l.length` always suffices. -/
def toBlocksAux : Nat → List Nat → List (List Nat)
  | _, [] => []
  | 0, _ => []
  | fuel + 1, l => l.take 64 :: toBlocksAux fuel (l.drop 64)

/-- Split a byte list into 64-byte blocks. -/
def toBlocks (l : List Nat) : List (List Nat) := toBlocksAux l.length l

/-- Group four consecutive bytes into one big-endian 32-bit word. -/
def bytesToWords : List Nat → List Nat
  | b0 :: b1 :: b2 :: b3 :: rest =>
      (((b0 * 256 + b1) * 256 + b2) * 256 + b3) :: bytesToWords rest
  | _ => []

/-- One step of message-schedule extension: append
`σ₁(w[t-2]) + w[t-7] + σ₀(w[t-15]) + w[t-16]` (mod 2³²). -/
def scheduleStep (w : List Nat) : List Nat :=
  let n := w.length
  w ++ [w32 (smallSigma1 (w.getD (n - 2) 0) + w.getD (n - 7) 0 +
             smallSigma0 (w.getD (n - 15) 0) + w.getD (n - 16) 0)]

/-- Extend the 16 block words to the 64-entry message schedule. -/
def schedule (w16 : List Nat) : List Nat :=
  (List.range 48).foldl (fun w _ => scheduleStep w) w16

/-- One SHA-256 compression round, consuming one `(k, w)` pair. -/
def compressStep (st : Hash8) (kw : Nat × Nat) : Hash8 :=
  let t1 := w32 (st.h + bigSigma1 st.e + shaCh st.e st.f st.g + kw.1 + kw.2)
  let t2 := w32 (bigSigma0 st.a + shaMaj st.a st.b st.c)
  ⟨w32 (t1 + t2), st.a, st.b, st.c, w32 (st.d + t1), st.e, st.f, st.g⟩

/-- Compress one 64-byte block into the running hash state. -/
def compressBlock (st : Hash8) (block : List Nat) : Hash8 :=
  let w := schedule (bytesToWords block)
  let r := (shaK.zip w).foldl compressStep st
  ⟨w32 (st.a + r.a), w32 (st.b + r.b), w32 (st.c + r.c), w32 (st.d + r.d),
   w32 (st.e + r.e), w32 (st.f + r.f), w32 (st.g + r.g), w32 (st.h + r.h)⟩

/-- The four big-endian bytes of a 32-bit word. -/
def wordBytes (w : Nat) : List Nat :=
  [w / 2 ^ 24 % 256, w / 2 ^ 16 % 256, w / 2 ^ 8 % 256, w % 256]

/-- SHA-256 of a byte list, as the 32 digest bytes. -/
def sha256Bytes (msg : List Nat) : List Nat :=
  let st := (toBlocks (padMessage msg)).foldl compressBlock shaH0
  wordBytes st.a ++ wordBytes st.b ++ wordBytes st.c ++ wordBytes st.d ++
  wordBytes st.e ++ wordBytes st.f ++ wordBytes st.g ++ wordBytes st.h

/-- The content fingerprint (`getLow128BitsOfSHA256` in src/server.js):
SHA-256 the UTF-8 bytes of `input`, keep the last 16 bytes
(`.slice(16)`), and fold them into a big integer with
`result = (result << 8n) + byte`. -/
def getLow128BitsOfSHA256 (input : String) : Nat :=
  let data := utf8Bytes input
  let hashBuffer := sha256Bytes data
  let low128 := hashBuffer.drop 16
  low128.foldl (fun result b => result * 256 + b) 0

/-! ## Decimal strings

`natRepr` models JavaScript `toString()`, `parseIntPrefix` models
`parseInt(s, 10)`, and `castInt` models SQLite `CAST(s AS INTEGER)`:
optional leading whitespace, an optional sign, then the longest leading
digit run; no digit is JS `NaN` (`none`), and 0 for the CAST.

These are exact-integer models.  They agree with the runtime exactly
on every value below `2 ^ 53`: above that, `parseInt` returns an IEEE
double that rounds, `CAST` saturates at int64, and `toString` switches
to exponent form at `1e21`.  Every theorem below evaluates them only
on values inside the exact range (concretely, or under an explicit
`< 2 ^ 53` hypothesis). -/

/-- The decimal digits of `n`, most significant first, with enough
fuel; the fuel is only a structural-recursion device, any `fuel ≥ n`
gives the digits of `n`. -/
def natDigitsAux : Nat → Nat → List Nat
  | 0, n => [n % 10]
  | fuel + 1, n => if n < 10 then [n] else natDigitsAux fuel (n / 10) ++ [n % 10]

/-- The decimal digits of `n`, most significant first. -/
def natDigits (n : Nat) : List Nat := natDigitsAux n n

/-- The character for one decimal digit. -/
def digitChar (d : Nat) : Char :=
  if d = 0 then '0' else if d = 1 then '1' else if d = 2 then '2'
  else if d = 3 then '3' else if d = 4 then '4' else if d = 5 then '5'
  else if d = 6 then '6' else if d = 7 then '7' else if d = 8 then '8'
  else '9'

/-- `n.toString()` for a non-negative integer. -/
def natRepr (n : Nat) : String := String.mk ((natDigits n).map digitChar)

/-- One stored row of the local `Markets` table, including the hidden
SQLite `rowid` column: the table is an ordinary rowid table and its
TEXT primary key `id` is not a rowid alias, so every stored row
carries a `rowid` even though `SELECT *` does not return it. -/
structure MarketRow where
  rowid : Nat
  id : String
  title : String
  description : String
  expiration : String
  creator : String
  totalAmount : Int
  IsExpired : Nat
  IsVerified : Nat
deriving DecidableEq

/-- One on-chain question record, as `contract.list()` returns it. -/
structure ChainQ where
  id : Nat
  question_title_hash : Nat
  expiration : String
  creator : String
  totalAmount : Int
deriving DecidableEq

/-- The observable outcome of one reconciliation invocation. -/
inductive ReconcileOutcome where
  | TransportError
  | NoPendingRecord
  | Verified (newId : String)
  | Unmatched (suggestedId : String) (written : Bool)
deriving DecidableEq

/-- The result of one reconciliation invocation: outcome, resulting
store, and the number of local read and write statements executed. -/
structure UpdateResult where
  outcome : ReconcileOutcome
  markets : List MarketRow
  reads : Nat
  writes : Nat
deriving DecidableEq

/-- `SELECT * FROM Markets WHERE IsVerified = 0 LIMIT 1`: the first
unverified row in storage order. -/
def selectUnverified (markets : List MarketRow) : Option MarketRow :=
  markets.find? (fun r => r.IsVerified == 0)

/-- The JS expression `unverified.rowid`: `SELECT * FROM Markets`
returns only the declared columns, and `rowid` is a hidden column of
this rowid table (its TEXT primary key is not a rowid alias), so the
property is absent and the access yields `undefined`, which
node-sqlite3 binds into the UPDATE as SQL NULL — modelled as `none`. -/
def selectStarRowid (m : MarketRow) : Option Nat := none

/-- One row under the match-branch
`UPDATE Markets SET id, expiration, creator, totalAmount, IsVerified = 1
WHERE rowid = ?` with bind value `rid`: a row is rewritten exactly when
`rowid = ?` holds of it, and `rowid = NULL` (`rid = none`) holds of no
row, so a NULL bind rewrites nothing. -/
def applyMatch (rid : Option Nat) (q : ChainQ) (m : MarketRow) : MarketRow :=
  if rid = some m.rowid then
    { m with id := natRepr q.id, expiration := q.expiration,
             creator := q.creator, totalAmount := q.totalAmount,
             IsVerified := 1 }
  else m

/-- One row under the no-match-branch
`UPDATE Markets SET id = ? WHERE rowid = ?` with bind value `rid`:
only `id` is set, and only where `rowid = ?` holds — of no row when
the bind is NULL (`rid = none`). -/
def applySuggest (rid : Option Nat) (s : String) (m : MarketRow) : MarketRow :=
  if rid = some m.rowid then { m with id := s } else m

/-- `lastId` of the no-match branch: the integer value of the last
snapshot record's identity (`parseInt(contractList[...].id, 10)` on a
chain integer), or 0 when the snapshot is empty. -/
def lastIdOf (contractList : List ChainQ) : Nat :=
  match contractList.getLast? with
  | some q => q.id
  | none => 0

/-- `suggestedId` of the no-match branch: `(lastId + 1).toString()`. -/
def suggestedIdOf (contractList : List ChainQ) : String :=
  natRepr (lastIdOf contractList + 1)

/-- The no-match branch of `update()`: issue the renumbering UPDATE
only when the suggestion differs from the record's current identity.
The UPDATE is keyed on `unverified.rowid`, which `SELECT *` never
returned, so the statement runs but rewrites no row. -/
def suggestBranch (contractList : List ChainQ) (markets : List MarketRow)
    (unverified : MarketRow) : UpdateResult :=
  if unverified.id ≠ suggestedIdOf contractList then
    ⟨.Unmatched (suggestedIdOf contractList) true,
     markets.map (applySuggest (selectStarRowid unverified) (suggestedIdOf contractList)),
     1, 1⟩
  else
    ⟨.Unmatched (suggestedIdOf contractList) false, markets, 1, 0⟩

/-- The reconciliation procedure `update()` of src/server.js.
`fetch` is the result of `contract.list()` (`none` = the RPC threw).
The returned counts record how many local `db.get`/`db.run`
statements executed.  Both `db.run` statements key their `WHERE` on
`unverified.rowid`, a property `SELECT *` did not return, so each
executes with a NULL bind and rewrites no row. -/
def update (fetch : Option (List ChainQ)) (markets : List MarketRow) : UpdateResult :=
  match fetch with
  | none => ⟨.TransportError, markets, 0, 0⟩
  | some contractList =>
    match selectUnverified markets with
    | none => ⟨.NoPendingRecord, markets, 1, 0⟩
    | some unverified =>
      match contractList.find?
          (fun chainQ => chainQ.question_title_hash == getLow128BitsOfSHA256 unverified.title) with
      | some matchedContract =>
        ⟨.Verified (natRepr matchedContract.id),
         markets.map (applyMatch (selectStarRowid unverified) matchedContract), 1, 1⟩
      | none => suggestBranch contractList markets unverified

/-- The store after a sequence of reconciliation invocations, each with
its own fetch result. -/
def updateMany (fetches : List (Option (List ChainQ))) (markets : List MarketRow) :
    List MarketRow :=
  fetches.foldl (fun ms f => (update f ms).markets) markets

/-! ## The `/api/next-market-id` endpoint -/

/-- One row of the `Bets` table. -/
structure Bet where
  betId : String
  marketId : String
  userId : String
  amount : Int
  outcome : String
  date : String
deriving DecidableEq

/-- The HTTP-visible and stored result of `/api/save-bet`. -/
structure SaveBetResult where
  status : Nat
  bets : List Bet
  markets : List MarketRow
deriving DecidableEq

/-- JavaScript falsiness of an optional string field (`undefined`
or `""`). -/
def jsFalsyStr (v : Option String) : Bool := v.isNone || v == some ""

/-- JavaScript falsiness of an optional integer field (`undefined`
or `0`). -/
def jsFalsyInt (v : Option Int) : Bool := v.isNone || v == some 0

/-- The `/api/save-bet` handler: reject with 400 when a field is falsy
or the amount is not positive; otherwise insert the bet (with
`betId = Date.now().toString()`, modelled by the `now` parameter) and
add `amount` to the market's `totalAmount`. -/
def saveBet (now : Nat) (userId marketId : Option String) (amount : Option Int)
    (outcome date : Option String) (bets : List Bet) (markets : List MarketRow) :
    SaveBetResult :=
  if jsFalsyStr userId || jsFalsyStr marketId || jsFalsyInt amount ||
     jsFalsyStr outcome || jsFalsyStr date then
    ⟨400, bets, markets⟩
  else
    let a := amount.getD 0
    if a ≤ 0 then ⟨400, bets, markets⟩
    else
      let mId := marketId.getD ""
      let newBet : Bet := ⟨natRepr now, mId, userId.getD "", a, outcome.getD "", date.getD ""⟩
      ⟨200, bets ++ [newBet],
       markets.map (fun m =>
         if m.id = mId then { m with totalAmount := m.totalAmount + a } else m)⟩

/-- Spec-side definition: a byte list read as a big-endian unsigned
integer, the byte at distance `k` from the end weighted by `256 ^ k`.
Stated from the spec's words, to be compared with the source's
accumulator loop. -/
def beVal : List Nat → Nat
  | [] => 0
  | b :: bs => b * 256 ^ bs.length + beVal bs

/-! ## Lemmas about the fingerprint -/

theorem foldl_shift_eq_beVal (bs : List Nat) :
    ∀ a : Nat, bs.foldl (fun result b => result * 256 + b) a = a * 256 ^ bs.length + beVal bs := by
  induction bs with
  | nil => intro a; simp [beVal]
  | cons b bs ih =>
    intro a
    simp only [List.foldl_cons, ih, beVal, List.length_cons]
    ring

theorem beVal_lt_of_bytes (bs : List Nat) (h : ∀ b ∈ bs, b < 256) :
    beVal bs < 256 ^ bs.length := by
  induction bs with
  | nil => simp [beVal]
  | cons b bs ih =>
    have hb : b < 256 := h b (List.mem_cons_self b bs)
    have hrest : beVal bs < 256 ^ bs.length :=
      ih (fun x hx => h x (List.mem_cons_of_mem b hx))
    simp only [beVal, List.length_cons, pow_succ]
    calc b * 256 ^ bs.length + beVal bs
        < b * 256 ^ bs.length + 256 ^ bs.length := by omega
      _ = (b + 1) * 256 ^ bs.length := by ring
      _ ≤ 256 * 256 ^ bs.length := by
          exact Nat.mul_le_mul_right _ (by omega)
      _ = 256 ^ bs.length * 256 := by ring

theorem wordBytes_length (w : Nat) : (wordBytes w).length = 4 := rfl

theorem wordBytes_lt (w : Nat) : ∀ b ∈ wordBytes w, b < 256 := by
  intro b hb
  simp only [wordBytes, List.mem_cons, List.not_mem_nil, or_false] at hb
  rcases hb with rfl | rfl | rfl | rfl <;> exact Nat.mod_lt _ (by omega)

theorem sha256Bytes_length (msg : List Nat) : (sha256Bytes msg).length = 32 := by
  simp [sha256Bytes, wordBytes]

theorem sha256Bytes_lt (msg : List Nat) : ∀ b ∈ sha256Bytes msg, b < 256 := by
  intro b hb
  simp only [sha256Bytes, List.mem_append] at hb
  rcases hb with ((((((hb | hb) | hb) | hb) | hb) | hb) | hb) | hb <;>
    exact wordBytes_lt _ b hb

/-! ## Lemmas about decimal strings -/

/-- C2: the content fingerprint of `s` is the low 16 bytes
(bytes 16–31) of the 32-byte SHA-256 hash of the UTF-8 encoding of
`s`, read as a big-endian unsigned 128-bit integer; the function is
total over all strings and deterministic. -/
theorem fingerprint_low128_sha256_be (s : String) :
    getLow128BitsOfSHA256 s = beVal ((sha256Bytes (utf8Bytes s)).drop 16) ∧
    (sha256Bytes (utf8Bytes s)).length = 32 ∧
    getLow128BitsOfSHA256 s < 2 ^ 128 ∧
    getLow128BitsOfSHA256 s = getLow128BitsOfSHA256 s := by
  have heq : getLow128BitsOfSHA256 s = beVal ((sha256Bytes (utf8Bytes s)).drop 16) := by
    unfold getLow128BitsOfSHA256
    rw [foldl_shift_eq_beVal]
    simp
  refine ⟨heq, sha256Bytes_length _, ?_, rfl⟩
  rw [heq]
  have hlen : ((sha256Bytes (utf8Bytes s)).drop 16).length = 16 := by
    rw [List.length_drop, sha256Bytes_length]
  have hlt : beVal ((sha256Bytes (utf8Bytes s)).drop 16) < 256 ^ 16 := by
    have h := beVal_lt_of_bytes ((sha256Bytes (utf8Bytes s)).drop 16)
      (fun b hb => sha256Bytes_lt _ b (List.mem_of_mem_drop hb))
    rwa [hlen] at h
  calc beVal ((sha256Bytes (utf8Bytes s)).drop 16) < 256 ^ 16 := hlt
    _ = 2 ^ 128 := by norm_num

/-! ## Lemmas about the reconciliation procedure -/

theorem selectUnverified_isPending (markets : List MarketRow) (r : MarketRow)
    (h : selectUnverified markets = some r) : r ∈ markets ∧ r.IsVerified = 0 := by
  refine ⟨List.mem_of_find?_eq_some h, ?_⟩
  have hp := List.find?_some h
  simpa using hp

theorem applyMatch_none (q : ChainQ) (m : MarketRow) : applyMatch none q m = m := by
  simp [applyMatch]

theorem applySuggest_none (s : String) (m : MarketRow) : applySuggest none s m = m := by
  simp [applySuggest]

theorem map_applyMatch_none (q : ChainQ) (ms : List MarketRow) :
    ms.map (applyMatch none q) = ms := by
  induction ms with
  | nil => rfl
  | cons m ms ih => simp [applyMatch_none, ih]

theorem map_applySuggest_none (s : String) (ms : List MarketRow) :
    ms.map (applySuggest none s) = ms := by
  induction ms with
  | nil => rfl
  | cons m ms ih => simp [applySuggest_none, ih]

/-- No reconciliation invocation changes the store: both UPDATE
statements bind the absent `unverified.rowid` as NULL and match no
row. -/
theorem update_markets_unchanged (fetch : Option (List ChainQ)) (markets : List MarketRow) :
    (update fetch markets).markets = markets := by
  unfold update
  split
  · rfl
  · split
    · rfl
    · split
      · exact map_applyMatch_none _ markets
      · unfold suggestBranch
        split
        · exact map_applySuggest_none _ markets
        · rfl

theorem updateMany_unchanged (fetches : List (Option (List ChainQ)))
    (markets : List MarketRow) : updateMany fetches markets = markets := by
  induction fetches generalizing markets with
  | nil => rfl
  | cons f fs ih =>
    show updateMany fs (update f markets).markets = markets
    rw [update_markets_unchanged, ih]

/-- C5: a failed ledger fetch aborts the invocation with a transport
error before any local read or write, leaving every record (in
particular every unresolved one) unchanged. -/
theorem transport_error_no_local_access (markets : List MarketRow) :
    update none markets = ⟨.TransportError, markets, 0, 0⟩ := rfl

/-- C6: when no record is pending, reconciliation reports
`NoPendingRecord` after the single pending-record query, with zero
writes and the store unchanged. -/
theorem no_pending_record_noop (contractList : List ChainQ) (markets : List MarketRow)
    (h : ∀ x ∈ markets, x.IsVerified ≠ 0) :
    update (some contractList) markets = ⟨.NoPendingRecord, markets, 1, 0⟩ := by
  have hsel : selectUnverified markets = none := by
    apply List.find?_eq_none.mpr
    intro x hx
    simpa using h x hx
  unfold update
  rw [hsel]

/-- Witness for C6 at a store whose single record is verified. -/
theorem no_pending_record_noop_witness :
    update (some []) [⟨1, "5", "t", "", "", "", 0, 0, 1⟩] =
      ⟨.NoPendingRecord, [⟨1, "5", "t", "", "", "", 0, 0, 1⟩], 1, 0⟩ :=
  no_pending_record_noop [] [⟨1, "5", "t", "", "", "", 0, 0, 1⟩] (by decide)

theorem update_access_shape (fetch : Option (List ChainQ)) (markets : List MarketRow) :
    (update fetch markets).reads ≤ 1 ∧ (update fetch markets).writes ≤ 1 ∧
    ((update fetch markets).markets = markets ∨
     (∃ rid q, (update fetch markets).markets = markets.map (applyMatch rid q)) ∨
     (∃ rid s, (update fetch markets).markets = markets.map (applySuggest rid s))) := by
  unfold update
  split
  · exact ⟨by simp, by simp, Or.inl rfl⟩
  · split
    · exact ⟨by simp, by simp, Or.inl rfl⟩
    · split
      · exact ⟨by simp, by simp, Or.inr (Or.inl ⟨_, _, rfl⟩)⟩
      · unfold suggestBranch
        split
        · exact ⟨by simp, by simp, Or.inr (Or.inr ⟨_, _, rfl⟩)⟩
        · exact ⟨by simp, by simp, Or.inl rfl⟩

/-- C7: every invocation performs at most one local read and at most
one local write, and the store either is untouched or is transformed
by exactly one whole-row update (`applyMatch` or `applySuggest`), so
no partial application of the match-branch field rewrites can occur. -/
theorem at_most_one_read_one_write (fetch : Option (List ChainQ)) (markets : List MarketRow) :
    (update fetch markets).reads ≤ 1 ∧ (update fetch markets).writes ≤ 1 ∧
    ((update fetch markets).markets = markets ∨
     (∃ rid q, (update fetch markets).markets = markets.map (applyMatch rid q)) ∨
     (∃ rid s, (update fetch markets).markets = markets.map (applySuggest rid s))) :=
  update_access_shape fetch markets

set_option maxRecDepth 20000 in
/-- C1 (code bug): at the failing input the code reports
`Verified "42"` — its own success log announces the verification — but
the store is unchanged: the record still has `id = "5"` and
`IsVerified = 0`.  The match-branch UPDATE keys on
`unverified.rowid`, a property the `SELECT *` row does not carry
(`rowid` is a hidden column and the TEXT primary key is no alias for
it), so the statement binds NULL and rewrites no row. -/
theorem reconcile_match_write_never_lands :
    update (some [⟨42, getLow128BitsOfSHA256 "T", "e", "c", 9⟩])
        [⟨1, "5", "T", "d", "x", "y", 0, 0, 0⟩] =
      ⟨.Verified "42", [⟨1, "5", "T", "d", "x", "y", 0, 0, 0⟩], 1, 1⟩ := by
  decide

set_option maxRecDepth 20000 in
/-- C3 (code bug): the suggested identity is computed as the claim
says — `"1"` for the empty snapshot, `"8"` when the last snapshot
identity is 7 — and reported with `written = true`, but the
renumbering UPDATE keys on the absent `unverified.rowid`, binds NULL
and rewrites no row: the record keeps `id = "5"` in both cases
instead of ending with identity `"8"`. -/
theorem reconcile_nomatch_write_never_lands :
    update (some []) [⟨1, "5", "t", "", "", "", 0, 0, 0⟩] =
      ⟨.Unmatched "1" true, [⟨1, "5", "t", "", "", "", 0, 0, 0⟩], 1, 1⟩ ∧
    update (some [⟨7, 0, "", "", 0⟩]) [⟨1, "5", "t", "", "", "", 0, 0, 0⟩] =
      ⟨.Unmatched "8" true, [⟨1, "5", "t", "", "", "", 0, 0, 0⟩], 1, 1⟩ :=
  ⟨by decide, by decide⟩

/-- C8: a record with `IsVerified ≠ 0` survives any sequence of
reconciliation invocations unchanged (in particular the flag never
returns to 0), and the pending-record selection of no reachable store
ever picks it: Resolved is terminal. -/
theorem resolved_is_terminal (fetches : List (Option (List ChainQ)))
    (markets : List MarketRow) (r : MarketRow)
    (hnodup : (markets.map (fun m => m.rowid)).Nodup)
    (hr : r ∈ markets) (hres : r.IsVerified ≠ 0) :
    r ∈ updateMany fetches markets ∧
    ∀ fetches2 : List (Option (List ChainQ)),
      selectUnverified (updateMany fetches2 markets) ≠ some r := by
  constructor
  · rw [updateMany_unchanged]
    exact hr
  · intro fetches2 hcontra
    exact hres (selectUnverified_isPending _ _ hcontra).2

/-- Witness for C8 on a two-row store whose second row is verified. -/
theorem resolved_is_terminal_witness :
    ⟨2, "7", "u", "", "", "", 3, 0, 1⟩ ∈
      (updateMany [some [], none]
        [⟨1, "0", "t", "", "", "", 0, 0, 0⟩, ⟨2, "7", "u", "", "", "", 3, 0, 1⟩]) ∧
    selectUnverified
        (updateMany []
          [⟨1, "0", "t", "", "", "", 0, 0, 0⟩, ⟨2, "7", "u", "", "", "", 3, 0, 1⟩]) ≠
      some ⟨2, "7", "u", "", "", "", 3, 0, 1⟩ := by
  have h := resolved_is_terminal [some [], none]
    [⟨1, "0", "t", "", "", "", 0, 0, 0⟩, ⟨2, "7", "u", "", "", "", 3, 0, 1⟩]
    ⟨2, "7", "u", "", "", "", 3, 0, 1⟩
    (by decide) (by decide) (by decide)
  exact ⟨h.1, h.2 []⟩

/-- Every repeated invocation against the same snapshot returns the
same result as the first: the store never changes, so reconciliation
makes no progress between calls. -/
theorem update_second_call_equals_first (contractList : List ChainQ)
    (markets : List MarketRow) :
    update (some contractList) ((update (some contractList) markets).markets) =
      update (some contractList) markets := by
  rw [update_markets_unchanged]

/-- C4 (code bug): with the sole pending record (`id = "0"`, empty
snapshot on both calls), the first invocation reports
`Unmatched "1" true` but its UPDATE binds the absent
`unverified.rowid` as NULL and changes nothing, so the second
invocation selects the same record and repeats `Unmatched "1" true` —
never `NoPendingRecord`.  The first call never actually resolves or
renumbers anything, so the antecedent of the claim is unachievable as
described. -/
theorem second_call_repeats_first :
    update (some []) [⟨1, "0", "t", "", "", "", 0, 0, 0⟩] =
      ⟨.Unmatched "1" true, [⟨1, "0", "t", "", "", "", 0, 0, 0⟩], 1, 1⟩ ∧
    update (some []) ((update (some []) [⟨1, "0", "t", "", "", "", 0, 0, 0⟩]).markets) =
      ⟨.Unmatched "1" true, [⟨1, "0", "t", "", "", "", 0, 0, 0⟩], 1, 1⟩ ∧
    (update (some [])
        ((update (some []) [⟨1, "0", "t", "", "", "", 0, 0, 0⟩]).markets)).outcome ≠
      .NoPendingRecord := by
  refine ⟨by decide, by decide, by decide⟩

/-! ## Lemmas about the next-market-id endpoint -/

/-- C10: a save-bet request with a missing field or a non-positive
amount is rejected with status 400 and changes neither the `Bets`
relation nor any market's `totalAmount`. -/
theorem save_bet_rejects_invalid (now : Nat) (userId marketId : Option String)
    (amount : Option Int) (outcome date : Option String)
    (bets : List Bet) (markets : List MarketRow)
    (h : userId = none ∨ marketId = none ∨ amount = none ∨ outcome = none ∨
      date = none ∨ ∃ a, amount = some a ∧ a ≤ 0) :
    saveBet now userId marketId amount outcome date bets markets =
      ⟨400, bets, markets⟩ := by
  unfold saveBet
  rcases h with h | h | h | h | h | ⟨a, ha, ha0⟩
  · rw [if_pos (by simp [h, jsFalsyStr])]
  · rw [if_pos (by simp [h, jsFalsyStr])]
  · rw [if_pos (by simp [h, jsFalsyInt])]
  · rw [if_pos (by simp [h, jsFalsyStr])]
  · rw [if_pos (by simp [h, jsFalsyStr])]
  · subst ha
    by_cases hfirst : jsFalsyStr userId || jsFalsyStr marketId ||
        jsFalsyInt (some a) || jsFalsyStr outcome || jsFalsyStr date
    · rw [if_pos hfirst]
    · rw [if_neg (by simpa using hfirst)]
      rw [if_pos (by simpa using ha0)]

/-- Witness for C10: a request with a negative amount is rejected and
leaves both relations untouched. -/
theorem save_bet_rejects_invalid_witness :
    saveBet 0 (some "u") (some "m") (some (-3)) (some "YES") (some "d") [] [] =
      ⟨400, [], []⟩ :=
  save_bet_rejects_invalid 0 (some "u") (some "m") (some (-3)) (some "YES") (some "d") [] []
    (Or.inr (Or.inr (Or.inr (Or.inr (Or.inr ⟨-3, rfl, by norm_num⟩)))))

end Polyserver
